import Mathlib

/-!
Verification of the consultations booking backend.

The development shallowly embeds the booking/cart/checkout/settlement core:

* `Consult.rhe`, `Consult.round28`, `Consult.decDiv`, `Consult.decMul`,
  `Consult.decAdd` model Python `decimal.Decimal` arithmetic under the default
  context: results are correctly rounded to 28 significant digits with
  round-half-even.  A `Decimal` value is represented by the exact rational it
  denotes.
* `Consult.compute_price` embeds `Appointment.compute_price` /
  `CartItem.computed_price`:
  `(Decimal(price_per_15min) / Decimal(15)) * Decimal(duration)`.
  Monetary amounts from the database (`DecimalField(max_digits=10,
  decimal_places=2)`) are passed as an integer number of cents.
* The data model (`Category`, `Appointment`, `CartItem`, `Order`,
  `OrderItem`, `DB`) and the operations (`validateCreateAppointment`, `book`,
  `validateAddToCart`, `addToCart`, `checkout`, `processSucceeded`,
  `processFailed`, `processWebhook`, `updateCategoryPrice`, cart mutation)
  embed the Django models, serializers and views, with dates as day numbers
  and times as minutes since midnight.
-/

namespace Consult

/-! ### Decimal arithmetic (default context: 28 significant digits, half-even) -/

/-- Round a rational to the nearest integer, ties to even
(the ROUND_HALF_EVEN mode of the default decimal context). -/
def rhe (x : ℚ) : ℤ :=
  if x - ⌊x⌋ < 1/2 then ⌊x⌋
  else if 1/2 < x - ⌊x⌋ then ⌊x⌋ + 1
  else if 2 ∣ ⌊x⌋ then ⌊x⌋ else ⌊x⌋ + 1

/-- Round a rational to 28 significant decimal digits, ties to even: the value
produced by an arithmetic operation of Python `decimal` under the default
context (`getcontext().prec == 28`). -/
def round28 (q : ℚ) : ℚ :=
  if q = 0 then 0
  else (rhe (q * (10:ℚ) ^ ((27:ℤ) - Int.log 10 q)) : ℚ) * (10:ℚ) ^ (Int.log 10 q - (27:ℤ))

/-- `Decimal.__truediv__`: correctly rounded quotient. -/
def decDiv (x y : ℚ) : ℚ := round28 (x / y)

/-- `Decimal.__mul__`: exact product rounded to the context precision. -/
def decMul (x y : ℚ) : ℚ := round28 (x * y)

/-- `Decimal.__add__`: exact sum rounded to the context precision. -/
def decAdd (x y : ℚ) : ℚ := round28 (x + y)

/-- `Appointment.compute_price` and `CartItem.computed_price`:
`(Decimal(self.category.price_per_15min) / Decimal(15)) * Decimal(self.duration)`.
`cents` is the stored `price_per_15min` in cents, `dur` the duration in
minutes. -/
def compute_price (cents dur : ℕ) : ℚ :=
  decMul (decDiv ((cents : ℚ) / 100) 15) (dur : ℚ)

lemma rhe_intCast (n : ℤ) : rhe (n : ℚ) = n := by
  unfold rhe
  rw [Int.floor_intCast]
  norm_num

lemma rhe_sub_abs_le (x : ℚ) : |(rhe x : ℚ) - x| ≤ 1/2 := by
  have h0 : ((⌊x⌋ : ℤ) : ℚ) ≤ x := Int.floor_le x
  have h1 : x < (⌊x⌋ : ℚ) + 1 := Int.lt_floor_add_one x
  unfold rhe
  split_ifs with hlt hgt hev
  · rw [abs_le]; constructor <;> linarith
  · rw [abs_le]; constructor <;> push_cast <;> linarith
  · have hx : x - (⌊x⌋ : ℚ) = 1/2 := le_antisymm (not_lt.mp hgt) (not_lt.mp hlt)
    rw [abs_le]; constructor <;> linarith
  · have hx : x - (⌊x⌋ : ℚ) = 1/2 := le_antisymm (not_lt.mp hgt) (not_lt.mp hlt)
    rw [abs_le]; constructor <;> push_cast <;> linarith

lemma rhe_eq_up (x : ℚ) (n : ℤ) (h1 : (n:ℚ) + 1/2 < x) (h2 : x < (n:ℚ) + 1) :
    rhe x = n + 1 := by
  have hfl : ⌊x⌋ = n := by
    rw [Int.floor_eq_iff]
    constructor <;> linarith
  unfold rhe
  rw [hfl]
  have hfrac : 1/2 < x - (n:ℚ) := by linarith
  rw [if_neg (by linarith), if_pos hfrac]

lemma rhe_eq_down (x : ℚ) (n : ℤ) (h1 : (n:ℚ) ≤ x) (h2 : x < (n:ℚ) + 1/2) :
    rhe x = n := by
  have hfl : ⌊x⌋ = n := by
    rw [Int.floor_eq_iff]
    constructor <;> linarith
  unfold rhe
  rw [hfl, if_pos (by linarith)]

lemma int_log_eq (q : ℚ) (e : ℤ) (hq : 0 < q)
    (h1 : (10:ℚ) ^ e ≤ q) (h2 : q < (10:ℚ) ^ (e + 1)) : Int.log 10 q = e := by
  have hcast : ((10:ℕ) : ℚ) = (10:ℚ) := by norm_num
  have ha : e ≤ Int.log 10 q := by
    rw [← Int.zpow_le_iff_le_log (by norm_num) hq, hcast]
    exact h1
  have hb : Int.log 10 q < e + 1 := by
    rw [← Int.lt_zpow_iff_log_lt (by norm_num) hq, hcast]
    exact h2
  omega

lemma round28_eval (q : ℚ) (e : ℤ) (hq : q ≠ 0) (he : Int.log 10 q = e) :
    round28 q = (rhe (q * (10:ℚ) ^ ((27:ℤ) - e)) : ℚ) * (10:ℚ) ^ (e - (27:ℤ)) := by
  rw [round28, if_neg hq, he]

lemma round28_zero : round28 0 = 0 := by
  simp [round28]

lemma round28_eq_self (q : ℚ) (hq : 0 < q) (hb : q < (10:ℚ) ^ (25:ℕ))
    (n : ℤ) (hn : q * (10:ℚ) ^ (3:ℕ) = n) : round28 q = q := by
  have hne : q ≠ 0 := ne_of_gt hq
  have hlt : Int.log 10 q < 25 := by
    rw [← Int.lt_zpow_iff_log_lt (by norm_num) hq]
    rw [show ((10:ℕ):ℚ) = (10:ℚ) by norm_num,
      show ((25:ℤ)) = ((25:ℕ):ℤ) by norm_num, zpow_natCast]
    exact hb
  set e := Int.log 10 q with hedef
  set k : ℕ := (24 - e).toNat with hkdef
  have hk : (k : ℤ) = 24 - e := Int.toNat_of_nonneg (by omega)
  have hx : q * (10:ℚ) ^ ((27:ℤ) - e) = ((n * 10 ^ k : ℤ) : ℚ) := by
    have hexp : (27:ℤ) - e = ((3:ℕ) : ℤ) + ((k:ℕ) : ℤ) := by omega
    rw [hexp, zpow_add₀ (by norm_num : (10:ℚ) ≠ 0), zpow_natCast, zpow_natCast]
    push_cast
    rw [← hn]
    ring
  rw [round28, if_neg hne, ← hedef, hx, rhe_intCast, ← hx, mul_assoc,
    ← zpow_add₀ (by norm_num : (10:ℚ) ≠ 0),
    show (27:ℤ) - e + (e - 27) = 0 by ring, zpow_zero, mul_one]

lemma round28_err (q : ℚ) (hq : 0 < q) : |round28 q - q| ≤ q / (2 * 10 ^ (27:ℕ)) := by
  have hne : q ≠ 0 := ne_of_gt hq
  set e := Int.log 10 q with hedef
  have hle : (10:ℚ) ^ e ≤ q := by
    have h := Int.zpow_log_le_self (b := 10) (r := q) (by norm_num) hq
    rwa [show ((10:ℕ):ℚ) = (10:ℚ) by norm_num] at h
  have hzpos : (0:ℚ) < (10:ℚ) ^ (e - (27:ℤ)) := zpow_pos (by norm_num) _
  have hsplit : (10:ℚ) ^ (e - (27:ℤ)) = (10:ℚ) ^ e / (10:ℚ) ^ (27:ℕ) := by
    rw [sub_eq_add_neg, zpow_add₀ (by norm_num : (10:ℚ) ≠ 0), zpow_neg,
      show ((27:ℤ)) = ((27:ℕ):ℤ) by norm_num, zpow_natCast]
    ring
  rw [round28, if_neg hne, ← hedef]
  set x := q * (10:ℚ) ^ ((27:ℤ) - e) with hxdef
  have hq' : q = x * (10:ℚ) ^ (e - (27:ℤ)) := by
    rw [hxdef, mul_assoc, ← zpow_add₀ (by norm_num : (10:ℚ) ≠ 0),
      show (27:ℤ) - e + (e - 27) = 0 by ring, zpow_zero, mul_one]
  have h1 : (rhe x : ℚ) * (10:ℚ) ^ (e - (27:ℤ)) - q
      = ((rhe x : ℚ) - x) * (10:ℚ) ^ (e - (27:ℤ)) := by
    rw [hq'] ; ring
  rw [h1, abs_mul, abs_of_pos hzpos]
  have h2 : |(rhe x : ℚ) - x| * (10:ℚ) ^ (e - (27:ℤ))
      ≤ (1/2) * (10:ℚ) ^ (e - (27:ℤ)) :=
    mul_le_mul_of_nonneg_right (rhe_sub_abs_le x) (le_of_lt hzpos)
  have h3 : (1/2) * (10:ℚ) ^ (e - (27:ℤ)) ≤ q / (2 * 10 ^ (27:ℕ)) := by
    rw [hsplit,
      show (1:ℚ)/2 * ((10:ℚ)^e / 10^(27:ℕ)) = (10:ℚ)^e / (2 * 10^(27:ℕ)) by ring]
    gcongr
  linarith

lemma round28_pos (q : ℚ) (hq : 0 < q) : 0 < round28 q := by
  have h := round28_err q hq
  rw [abs_le] at h
  have hlt : q / (2 * 10 ^ (27:ℕ)) < q := by
    rw [div_lt_iff₀ (by positivity)]
    nlinarith
  linarith [h.1]

lemma round28_le_mul (q : ℚ) (hq : 0 < q) :
    round28 q ≤ q * (1 + 1 / (2 * 10 ^ (27:ℕ))) := by
  have h := round28_err q hq
  rw [abs_le] at h
  have hr : q * (1 + 1 / (2 * 10 ^ (27:ℕ))) = q + q / (2 * 10 ^ (27:ℕ)) := by
    ring
  linarith [h.2]

lemma round28_ge_mul (q : ℚ) (hq : 0 < q) :
    q * (1 - 1 / (2 * 10 ^ (27:ℕ))) ≤ round28 q := by
  have h := round28_err q hq
  rw [abs_le] at h
  have hr : q * (1 - 1 / (2 * 10 ^ (27:ℕ))) = q - q / (2 * 10 ^ (27:ℕ)) := by
    ring
  linarith [h.1]

/-! ### Properties of the pricing function -/

lemma compute_price_zero (D : ℕ) : compute_price 0 D = 0 := by
  simp [compute_price, decDiv, decMul, round28_zero]

/-- When the unit price in cents is divisible by 3 the quotient by 15 is a
finite decimal, so no rounding occurs and the computed price is the exact
rational `price_per_15min / 15 * duration`. -/
lemma compute_price_eq_exact (k D : ℕ) (h3 : 3 ∣ k) (hk : k < 10 ^ 10)
    (hD0 : 0 < D) (hD : D ≤ 120) :
    compute_price k D = (k : ℚ) / 100 / 15 * D := by
  obtain ⟨m, rfl⟩ := h3
  rcases Nat.eq_zero_or_pos m with hm | hm
  · subst hm
    simp [compute_price_zero]
  · have hmq : (0:ℚ) < (m:ℚ) := by exact_mod_cast hm
    have hkq : ((3 * m : ℕ) : ℚ) = 3 * (m:ℚ) := by push_cast ; ring
    have hkub : (3 * (m:ℚ)) < 10 ^ (10:ℕ) := by
      rw [← hkq] ; exact_mod_cast hk
    have hDq : (0:ℚ) < (D:ℚ) := by exact_mod_cast hD0
    have hDub : (D:ℚ) ≤ 120 := by exact_mod_cast hD
    have hq : ((3 * m : ℕ) : ℚ) / 100 / 15 = 3 * (m:ℚ) / 1500 := by
      rw [hkq] ; ring
    have hstep1 : decDiv (((3 * m : ℕ) : ℚ) / 100) 15 = 3 * (m:ℚ) / 1500 := by
      show round28 ((((3 * m : ℕ) : ℚ) / 100) / 15) = _
      rw [show (((3 * m : ℕ) : ℚ) / 100) / 15 = 3 * (m:ℚ) / 1500 from hq]
      refine round28_eq_self _ (by positivity) ?_ (2 * m) ?_
      · rw [div_lt_iff₀ (by norm_num)]
        nlinarith
      · push_cast
        ring
    have hstep2 : decMul (3 * (m:ℚ) / 1500) (D:ℚ) = 3 * (m:ℚ) / 1500 * D := by
      show round28 (3 * (m:ℚ) / 1500 * D) = _
      refine round28_eq_self _ (by positivity) ?_ (2 * m * D) ?_
      · rw [div_mul_eq_mul_div, div_lt_iff₀ (by norm_num)]
        nlinarith
      · push_cast
        ring
    rw [compute_price, hstep1, hstep2, hq]

lemma compute_price_bounds (k D : ℕ) (hk : 0 < k) (hD : 0 < D) :
    (k:ℚ) * D / 1500 * (1 - 1 / 10 ^ (26:ℕ)) ≤ compute_price k D ∧
    compute_price k D ≤ (k:ℚ) * D / 1500 * (1 + 1 / 10 ^ (26:ℕ)) := by
  have hkq : (0:ℚ) < (k:ℚ) := by exact_mod_cast hk
  have hDq : (0:ℚ) < (D:ℚ) := by exact_mod_cast hD
  set q : ℚ := (k:ℚ) / 100 / 15 with hqdef
  have hq0 : 0 < q := by positivity
  set q1 : ℚ := round28 (q) with hq1def
  have hq1lb := round28_ge_mul q hq0
  have hq1ub := round28_le_mul q hq0
  have hq1pos : 0 < q1 := round28_pos q hq0
  have hv0 : 0 < q1 * (D:ℚ) := mul_pos hq1pos hDq
  have hplb := round28_ge_mul (q1 * (D:ℚ)) hv0
  have hpub := round28_le_mul (q1 * (D:ℚ)) hv0
  have hcp : compute_price k D = round28 (q1 * (D:ℚ)) := rfl
  have hqq : (k:ℚ) * D / 1500 = q * D := by rw [hqdef] ; ring
  rw [hcp, hqq]
  constructor
  · have h1 : q * (D:ℚ) * ((1 - 1 / (2 * 10 ^ (27:ℕ))) * (1 - 1 / (2 * 10 ^ (27:ℕ))))
        ≤ round28 (q1 * (D:ℚ)) := by
      nlinarith [mul_pos hq0 hDq]
    nlinarith [mul_pos hq0 hDq]
  · have h1 : round28 (q1 * (D:ℚ))
        ≤ q * (D:ℚ) * ((1 + 1 / (2 * 10 ^ (27:ℕ))) * (1 + 1 / (2 * 10 ^ (27:ℕ)))) := by
      nlinarith [mul_pos hq0 hDq]
    nlinarith [mul_pos hq0 hDq]

/-- The computed price is strictly monotone in the stored unit price: two
different catalog prices (both within the 10-digit capacity of the field)
always give different totals, the 28-digit rounding error being far below a
cent. -/
lemma compute_price_lt_of_lt (k kk D : ℕ) (hlt : k < kk) (hub : kk < 10 ^ 10)
    (hD0 : 0 < D) (hD : D ≤ 120) : compute_price k D < compute_price kk D := by
  have hkk0 : 0 < kk := Nat.pos_of_ne_zero (by omega)
  have hkkq : (0:ℚ) < (kk:ℚ) := by exact_mod_cast hkk0
  have hDq : (0:ℚ) < (D:ℚ) := by exact_mod_cast hD0
  have hlb := (compute_price_bounds kk D hkk0 hD0).1
  rcases Nat.eq_zero_or_pos k with hk0 | hk0
  · subst hk0
    rw [compute_price_zero]
    have : (0:ℚ) < (kk:ℚ) * D / 1500 * (1 - 1 / 10 ^ (26:ℕ)) := by positivity
    linarith
  · have hub' := (compute_price_bounds k D hk0 hD0).2
    have hkq : (0:ℚ) < (k:ℚ) := by exact_mod_cast hk0
    have hsucc : (k:ℚ) + 1 ≤ (kk:ℚ) := by exact_mod_cast hlt
    have hkub : (kk:ℚ) < 10 ^ (10:ℕ) := by exact_mod_cast hub
    have hDub : (D:ℚ) ≤ 120 := by exact_mod_cast hD
    have hgap : (k:ℚ) * D / 1500 * (1 + 1 / 10 ^ (26:ℕ))
        < (kk:ℚ) * D / 1500 * (1 - 1 / 10 ^ (26:ℕ)) := by
      rw [div_mul_eq_mul_div, div_mul_eq_mul_div, div_lt_div_iff₀ (by norm_num) (by norm_num)]
      nlinarith
    linarith

lemma compute_price_ne_of_ne (k kk D : ℕ) (hne : k ≠ kk) (hub : k < 10 ^ 10)
    (hub' : kk < 10 ^ 10) (hD0 : 0 < D) (hD : D ≤ 120) :
    compute_price k D ≠ compute_price kk D := by
  rcases lt_or_gt_of_ne hne with h | h
  · exact ne_of_lt (compute_price_lt_of_lt k kk D h hub' hD0 hD)
  · exact ne_of_gt (compute_price_lt_of_lt kk k D h hub hD0 hD)

lemma compute_price_4500_60 : compute_price 4500 60 = 180 := by
  rw [compute_price_eq_exact 4500 60 (by norm_num) (by norm_num) (by norm_num) (by norm_num)]
  norm_num

lemma compute_price_6000_60 : compute_price 6000 60 = 240 := by
  rw [compute_price_eq_exact 6000 60 (by norm_num) (by norm_num) (by norm_num) (by norm_num)]
  norm_num

/-- Dividing the unit price 0.31 by 15 under the default decimal context:
the quotient is an infinite decimal and is rounded (up, the dropped tail being
a repeating 6) to 28 significant digits, exactly as Python returns
Decimal 0.02066666666666666666666666667. -/
lemma decDiv_31 : decDiv ((31:ℚ)/100) 15 = 2066666666666666666666666667 / 10 ^ (29:ℕ) := by
  show round28 (((31:ℚ)/100) / 15) = _
  rw [show ((31:ℚ)/100) / 15 = 31/1500 by norm_num]
  have hlog : Int.log 10 ((31:ℚ)/1500) = -2 := by
    apply int_log_eq _ _ (by norm_num)
    · rw [show ((-2:ℤ)) = -((2:ℕ):ℤ) by norm_num, zpow_neg, zpow_natCast]
      norm_num
    · rw [show ((-2:ℤ) + 1) = -((1:ℕ):ℤ) by norm_num, zpow_neg, zpow_natCast]
      norm_num
  rw [round28_eval _ (-2) (by norm_num) hlog]
  rw [show (27:ℤ) - (-2) = ((29:ℕ):ℤ) by norm_num, zpow_natCast]
  rw [show (31:ℚ)/1500 * 10 ^ (29:ℕ) = 31 * 10 ^ (29:ℕ) / 1500 by ring]
  rw [rhe_eq_up _ 2066666666666666666666666666 (by norm_num) (by norm_num)]
  rw [show ((-2:ℤ) - 27) = -((29:ℕ):ℤ) by norm_num, zpow_neg, zpow_natCast]
  norm_num

/-- Multiplying the rounded quotient back by the duration 30: the exact
product fits in 28 significant digits, so it is kept as is — and it is not
0.62 but 0.6200000000000000000000000001. -/
lemma decMul_31 : decMul (2066666666666666666666666667 / 10 ^ (29:ℕ) : ℚ) 30
    = 6200000000000000000000000001 / 10 ^ (28:ℕ) := by
  show round28 _ = _
  rw [show (2066666666666666666666666667 / 10 ^ (29:ℕ) : ℚ) * 30
      = 6200000000000000000000000001 / 10 ^ (28:ℕ) by norm_num]
  have hlog : Int.log 10 ((6200000000000000000000000001 / 10 ^ (28:ℕ) : ℚ)) = -1 := by
    apply int_log_eq _ _ (by positivity)
    · rw [show ((-1:ℤ)) = -((1:ℕ):ℤ) by norm_num, zpow_neg, zpow_natCast]
      norm_num
    · rw [show ((-1:ℤ) + 1) = (0:ℤ) by norm_num, zpow_zero]
      rw [div_lt_one (by positivity)]
      norm_num
  rw [round28_eval _ (-1) (by positivity) hlog]
  rw [show (27:ℤ) - (-1) = ((28:ℕ):ℤ) by norm_num, zpow_natCast]
  rw [show (6200000000000000000000000001 / 10 ^ (28:ℕ) : ℚ) * 10 ^ (28:ℕ)
      = ((6200000000000000000000000001 : ℤ) : ℚ) by norm_num]
  rw [rhe_intCast]
  rw [show ((-1:ℤ) - 27) = -((28:ℕ):ℤ) by norm_num, zpow_neg, zpow_natCast]
  norm_num

/-- The computed price for unit price 0.31 and duration 30 carries a one-ulp
rounding drift: it is 0.6200000000000000000000000001, not the exact 0.62. -/
lemma compute_price_31_30 :
    compute_price 31 30 = 6200000000000000000000000001 / 10 ^ (28:ℕ) := by
  unfold compute_price
  rw [show ((31:ℕ):ℚ) = (31:ℚ) by norm_num, show ((30:ℕ):ℚ) = (30:ℚ) by norm_num,
    decDiv_31, decMul_31]

/-! ### Data model

Dates are day numbers, times are minutes since midnight (so 09:00 is 540 and
18:00 is 1080), durations are minutes.  Monetary DB columns
(`price_per_15min`) are cents; computed `Decimal` amounts are rationals. -/

/-- `ConsultationCategory`: id, name, `price_per_15min` in cents. -/
structure Category where
  id : ℕ
  name : String
  priceCents : ℕ
deriving DecidableEq

/-- `Appointment` row: user, category, date, time, duration, stored
`total_price`, `is_paid`. -/
structure Appointment where
  id : ℕ
  userId : ℕ
  categoryId : ℕ
  date : ℕ
  time : ℕ
  duration : ℕ
  totalPrice : ℚ
  isPaid : Bool
deriving DecidableEq

/-- `CartItem` row: the owning cart is identified by its user (one cart per
user); category, date, time, duration.  No price column. -/
structure CartItem where
  id : ℕ
  userId : ℕ
  categoryId : ℕ
  date : ℕ
  time : ℕ
  duration : ℕ
deriving DecidableEq

/-- `Order.STATUS_CHOICES`. -/
inductive OrderStatus
  | pending
  | paid
  | failed
  | cancelled
deriving DecidableEq

/-- `Order` row: user, snapshot `total_amount`, status, Stripe payment-intent
id (blank until the intent is created). -/
structure Order where
  id : ℕ
  userId : ℕ
  totalAmount : ℚ
  status : OrderStatus
  stripePI : Option ℕ
deriving DecidableEq

/-- `OrderItem` row: frozen snapshot of one cart item, plus the optional
back-reference to the appointment created at settlement. -/
structure OrderItem where
  id : ℕ
  orderId : ℕ
  categoryId : ℕ
  categoryName : String
  date : ℕ
  time : ℕ
  duration : ℕ
  unitPrice : ℚ
  totalPrice : ℚ
  appointmentId : Option ℕ
deriving DecidableEq

/-- The durable store: one table per model, plus the primary-key sequence. -/
structure DB where
  categories : List Category
  appointments : List Appointment
  cartItems : List CartItem
  orders : List Order
  orderItems : List OrderItem
  nextId : ℕ
deriving DecidableEq

/-- `Appointment.DURATION_CHOICES` / the `validate_duration` whitelist. -/
def validDurations : List ℕ := [15, 30, 60, 120]

/-- `WORKING_HOURS_START` = 09:00. -/
def workStart : ℕ := 540

/-- `WORKING_HOURS_END` = 18:00. -/
def workEnd : ℕ := 1080

/-- `(datetime.combine(today, time) + timedelta(minutes=duration)).time()`:
the wall-clock end time, wrapping past midnight. -/
def endTimeMinutes (t dur : ℕ) : ℕ := (t + dur) % 1440

/-- Current `price_per_15min` (in cents) of a category, looked up by id. -/
def catPriceCents (db : DB) (cid : ℕ) : ℕ :=
  match db.categories.find? (fun c => c.id = cid) with
  | some c => c.priceCents
  | none => 0

/-- Denormalized category name, looked up by id. -/
def catName (db : DB) (cid : ℕ) : String :=
  match db.categories.find? (fun c => c.id = cid) with
  | some c => c.name
  | none => ""

/-- Whether some appointment row occupies the exact (category, date, time)
slot — the filter of `CreateAppointmentSerializer.validate` and of the
`get_or_create` lookup in the webhook. -/
def hasSlot (db : DB) (cid date time : ℕ) : Bool :=
  db.appointments.any (fun a => a.categoryId = cid && a.date = date && a.time = time)

/-- Whether some **paid** appointment occupies the slot — the filter of
`AddToCartSerializer.validate`. -/
def hasPaidSlot (db : DB) (cid date time : ℕ) : Bool :=
  db.appointments.any
    (fun a => a.categoryId = cid && a.date = date && a.time = time && a.isPaid)

/-! ### Booking (CreateAppointmentSerializer + AppointmentCreateView) -/

/-- Rejections of `CreateAppointmentSerializer`: unknown category primary key,
`validate_date`, `validate_time`, `validate_duration`, the end-of-day check of
`validate`, and the slot-availability / unique_together conflict. -/
inductive BookError
  | badCategory
  | pastDate
  | outsideHours
  | badDuration
  | endsAfterClose
  | slotConflict
deriving DecidableEq

/-- `CreateAppointmentSerializer` validation for a create (instance is None).
Field validators run first (category FK existence, `validate_date`,
`validate_time`, `validate_duration`), then the `unique_together`
(category, date, time) validator, then `validate`: the end-time check
(`appt_end > WORKING_HOURS_END` rejected — note the strict `>`) followed by
the same slot-existence query. -/
def validateCreateAppointment (db : DB) (today cid date time dur : ℕ) :
    Except BookError Unit :=
  if ¬ db.categories.any (fun c => c.id = cid) then .error .badCategory
  else if date < today then .error .pastDate
  else if ¬ (workStart ≤ time ∧ time < workEnd) then .error .outsideHours
  else if dur ∉ validDurations then .error .badDuration
  else if hasSlot db cid date time then .error .slotConflict
  else if endTimeMinutes time dur > workEnd then .error .endsAfterClose
  else if hasSlot db cid date time then .error .slotConflict
  else .ok ()

/-- `serializer.save()` for a valid booking: create the appointment
(user from the request, `is_paid` false) with `total_price` recomputed by
`Appointment.save` from the category's current price. -/
def book (db : DB) (today uid cid date time dur : ℕ) :
    Except BookError (DB × ℕ) :=
  match validateCreateAppointment db today cid date time dur with
  | .error e => .error e
  | .ok _ =>
      let appt : Appointment :=
        { id := db.nextId, userId := uid, categoryId := cid,
          date := date, time := time, duration := dur,
          totalPrice := compute_price (catPriceCents db cid) dur,
          isPaid := false }
      .ok ({ db with appointments := db.appointments ++ [appt],
                     nextId := db.nextId + 1 }, db.nextId)

/-! ### Cart (AddToCartSerializer + CartView / CartItemView / ClearCartView) -/

/-- Rejections of `AddToCartSerializer`: unknown category, past date, invalid
duration, or slot already booked as a **paid** appointment.  There is no
start-time or end-time validation on this path. -/
inductive CartError
  | badCategory
  | pastDate
  | badDuration
  | slotTaken
deriving DecidableEq

/-- `AddToCartSerializer` validation: `validate_date`, `validate_duration`,
then the paid-slot guard of `validate`. -/
def validateAddToCart (db : DB) (today cid date time dur : ℕ) :
    Except CartError Unit :=
  if ¬ db.categories.any (fun c => c.id = cid) then .error .badCategory
  else if date < today then .error .pastDate
  else if dur ∉ validDurations then .error .badDuration
  else if hasPaidSlot db cid date time then .error .slotTaken
  else .ok ()

/-- `CartView.post`: validate, get-or-create the user's cart, create the
`CartItem`. -/
def addToCart (db : DB) (today uid cid date time dur : ℕ) :
    Except CartError (DB × ℕ) :=
  match validateAddToCart db today cid date time dur with
  | .error e => .error e
  | .ok _ =>
      let item : CartItem :=
        { id := db.nextId, userId := uid, categoryId := cid,
          date := date, time := time, duration := dur }
      .ok ({ db with cartItems := db.cartItems ++ [item],
                     nextId := db.nextId + 1 }, db.nextId)

/-- The user's cart content. -/
def userCart (db : DB) (uid : ℕ) : List CartItem :=
  db.cartItems.filter (fun it => it.userId = uid)

/-- `CartItem.computed_price`, reading the category's current price. -/
def cartItemPrice (db : DB) (it : CartItem) : ℚ :=
  compute_price (catPriceCents db it.categoryId) it.duration

/-- `Cart.total()`: `sum(item.computed_price() for item in self.items.all())`,
each decimal addition rounded by the context. -/
def cartTotal (db : DB) (uid : ℕ) : ℚ :=
  (userCart db uid).foldl (fun acc it => decAdd acc (cartItemPrice db it)) 0

/-- `CartItemView.delete`: remove one item of the user's own cart. -/
def deleteCartItem (db : DB) (uid itemId : ℕ) : DB :=
  { db with cartItems :=
      db.cartItems.filter (fun it => ¬ (it.id = itemId ∧ it.userId = uid)) }

/-- `ClearCartView.delete`: empty the user's cart. -/
def clearCart (db : DB) (uid : ℕ) : DB :=
  { db with cartItems := db.cartItems.filter (fun it => it.userId ≠ uid) }

/-- `CategoryAdminDetailView` price update: admin changes a category's
`price_per_15min`. -/
def updateCategoryPrice (db : DB) (cid newCents : ℕ) : DB :=
  { db with categories :=
      db.categories.map (fun c => if c.id = cid then { c with priceCents := newCents } else c) }

/-! ### Checkout (CreateCheckoutSessionView.post) -/

/-- Checkout refusals: empty cart, non-positive total, Stripe error
(502, order rolled back). -/
inductive CheckoutError
  | emptyCart
  | invalidTotal
  | upstreamPaymentError
deriving DecidableEq

/-- `OrderItem.objects.create(...)` inside the checkout loop: a frozen
snapshot of one (position, cart item) pair, carrying the category's current
unit price and the computed total. -/
def snapshotItem (db : DB) (orderId : ℕ) (p : ℕ × CartItem) : OrderItem :=
  { id := orderId + 1 + p.1, orderId := orderId,
    categoryId := p.2.categoryId,
    categoryName := catName db p.2.categoryId,
    date := p.2.date, time := p.2.time, duration := p.2.duration,
    unitPrice := (catPriceCents db p.2.categoryId : ℚ) / 100,
    totalPrice := cartItemPrice db p.2,
    appointmentId := none }

/-- `CreateCheckoutSessionView.post`.  `providerOk` is the outcome of the
external `stripe.PaymentIntent.create` call; on a provider error the order
just created is deleted (`order.delete()`, cascading to its items) and a 502
is returned.  On success the intent id is stored on the order. -/
def checkout (db : DB) (uid : ℕ) (providerOk : Bool) (intentId : ℕ) :
    DB × Except CheckoutError (ℕ × ℚ) :=
  let items := userCart db uid
  if items.isEmpty then (db, .error .emptyCart)
  else
    let total := cartTotal db uid
    if total ≤ 0 then (db, .error .invalidTotal)
    else
      let orderId := db.nextId
      let order : Order :=
        { id := orderId, userId := uid, totalAmount := total,
          status := .pending, stripePI := none }
      let newItems := items.enum.map (snapshotItem db orderId)
      let db1 : DB :=
        { db with orders := db.orders ++ [order],
                  orderItems := db.orderItems ++ newItems,
                  nextId := orderId + 1 + items.length }
      if providerOk then
        let withPI := db1.orders.map
          (fun o => if o.id = orderId then { o with stripePI := some intentId } else o)
        ({ db1 with orders := withPI }, .ok (orderId, total))
      else
        ({ db1 with orders := db1.orders.filter (fun o => o.id ≠ orderId),
                    orderItems := db1.orderItems.filter (fun oi => oi.orderId ≠ orderId) },
         .error .upstreamPaymentError)

/-! ### Settlement (StripeWebhookView.post) -/

/-- An incoming Stripe event: type plus `data.object.metadata.order_id`
(absent when the metadata carries no order id). -/
inductive StripeEvent
  | succeeded (orderId : Option ℕ)
  | failed (orderId : Option ℕ)
  | other
deriving DecidableEq

/-- The webhook HTTP outcome: 200 ok, 400 invalid signature,
404 order not found. -/
inductive WebhookResp
  | ok
  | invalidSignature
  | orderNotFound
deriving DecidableEq

/-- `Order.objects.get(pk=order_id, status='pending')`. -/
def findPendingOrder (db : DB) (oid : ℕ) : Option Order :=
  db.orders.find? (fun o => o.id = oid && o.status = OrderStatus.pending)

/-- One iteration of the webhook's appointment loop:
`Appointment.objects.get_or_create(category=oi.category, date=oi.date,
time=oi.time, defaults={user, duration, is_paid=True})`.  When a row is
created its `save()` recomputes `total_price` from the category's current
price, and the `OrderItem` is linked back to it; when the slot is already
occupied nothing happens (the silent `pass` branch). -/
def settleItem (db : DB) (ouser : ℕ) (oi : OrderItem) : DB :=
  if hasSlot db oi.categoryId oi.date oi.time then db
  else
    let appt : Appointment :=
      { id := db.nextId, userId := ouser, categoryId := oi.categoryId,
        date := oi.date, time := oi.time, duration := oi.duration,
        totalPrice := compute_price (catPriceCents db oi.categoryId) oi.duration,
        isPaid := true }
    { db with appointments := db.appointments ++ [appt],
              orderItems := db.orderItems.map
                (fun x => if x.id = oi.id then { x with appointmentId := some appt.id } else x),
              nextId := db.nextId + 1 }

/-- The `payment_intent.succeeded` branch: require a pending order with the
correlated id (else 404), mark it paid, materialize appointments for its
items, clear the user's cart, acknowledge with 200. -/
def processSucceeded (db : DB) (oid : Option ℕ) : DB × WebhookResp :=
  match oid with
  | none => (db, .orderNotFound)
  | some oid =>
      match findPendingOrder db oid with
      | none => (db, .orderNotFound)
      | some o =>
          let paidOrders := db.orders.map
            (fun x => if x.id = oid then { x with status := .paid } else x)
          let db1 : DB := { db with orders := paidOrders }
          let itemsOfOrder := db1.orderItems.filter (fun oi => oi.orderId = oid)
          let db2 := itemsOfOrder.foldl (fun d oi => settleItem d o.userId oi) db1
          ({ db2 with cartItems := db2.cartItems.filter (fun it => it.userId ≠ o.userId) },
           .ok)

/-- The `payment_intent.payment_failed` branch:
`Order.objects.filter(pk=order_id, status='pending').update(status='failed')`
— a filtered update that touches nothing when no such order exists — then the
unconditional 200. -/
def processFailed (db : DB) (oid : Option ℕ) : DB × WebhookResp :=
  match oid with
  | none => (db, .ok)
  | some oid =>
      let failedOrders := db.orders.map
        (fun o => if o.id = oid && o.status = OrderStatus.pending
                  then { o with status := .failed } else o)
      ({ db with orders := failedOrders }, .ok)

/-- `StripeWebhookView.post`: verify the signature (400 on failure), then
dispatch on the event type; unknown event types are acknowledged with 200. -/
def processWebhook (db : DB) (sigValid : Bool) (evt : StripeEvent) :
    DB × WebhookResp :=
  if ¬ sigValid then (db, .invalidSignature)
  else
    match evt with
    | .succeeded oid => processSucceeded db oid
    | .failed oid => processFailed db oid
    | .other => (db, .ok)

/-! ### Sample data for concrete scenarios -/

/-- A catalog with one category (Immigration at 45.00 per 15 min) and an
otherwise empty store. -/
def db0 : DB :=
  { categories := [{ id := 1, name := "Immigration", priceCents := 4500 },
                   { id := 2, name := "Family Law", priceCents := 6000 }],
    appointments := [], cartItems := [], orders := [], orderItems := [],
    nextId := 3 }

/-! ### Claims -/

/-- C1: the claim says any (time, duration) ending at or after 18:00 is
rejected, in particular start 16:00 with duration 120 (end exactly 18:00).
The code checks `appt_end > WORKING_HOURS_END` — a strict `>` — so an
appointment ending exactly at 18:00 is ACCEPTED, contradicting both the spec
and the repository's own test
`test_reject_appointment_ending_exactly_at_6pm`.  This theorem evaluates the
embedded validator at the failing input (today = 0, date = 5, category 1):
start 960 (=16:00) with duration 120 passes validation, and start 960 with
duration 60 passes as well. -/
theorem C1_end_time_boundary_code_behavior :
    validateCreateAppointment db0 0 1 5 960 120 = .ok () ∧
    validateCreateAppointment db0 0 1 5 960 60 = .ok () := by
  constructor <;> rfl

/-- C2 (counterexample): the claim that the cart-add validator equals the
direct-booking validation (with the slot-existence check removed) plus the
paid-slot guard is false: adding at start time 480 (= 08:00, before opening)
is accepted by `AddToCartSerializer`, which has no working-hours check, while
the direct-booking validation rejects it. -/
theorem C2_cart_vs_booking_counterexample :
    ¬ ∀ (db : DB) (today cid date time dur : ℕ),
        (validateAddToCart db today cid date time dur = .ok ()) ↔
        ((validateCreateAppointment { db with appointments := [] }
            today cid date time dur = .ok ())
          ∧ hasPaidSlot db cid date time = false) := by
  intro h
  have h2 := (h db0 0 1 5 480 60).mp (by rfl)
  have h3 := h2.1
  rw [show validateCreateAppointment { db0 with appointments := [] } 0 1 5 480 60
      = .error .outsideHours from rfl] at h3
  exact absurd h3 (by simp)

/-- C2 (amended): `AddToCartSerializer` accepts an input iff the category
exists, the date is not in the past, the duration is whitelisted and no PAID
appointment occupies the slot; unlike direct booking it performs no
start-time, end-time or unpaid-slot validation. -/
theorem C2_cart_validator_characterization (db : DB) (today cid date time dur : ℕ) :
    (validateAddToCart db today cid date time dur = .ok ()) ↔
    (db.categories.any (fun c => c.id = cid) = true ∧ ¬ date < today
      ∧ dur ∈ validDurations ∧ hasPaidSlot db cid date time = false) := by
  unfold validateAddToCart
  split_ifs with h1 h2 h3 h4 <;> simp_all

/-- C3 (counterexample): the claim says a settlement event (succeeded or
failed) for an absent / already-resolved order is a benign no-op that is NOT
surfaced as a hard failure.  For `payment_intent.succeeded` the code answers
404 "Order not found" — a hard failure Stripe will retry — so the claim as
stated is false at the concrete input db0 (no orders), order id 7. -/
theorem C3_webhook_noop_counterexample :
    ¬ ∀ (db : DB) (oid : ℕ),
        (∀ o ∈ db.orders, ¬ (o.id = oid ∧ o.status = OrderStatus.pending)) →
        processWebhook db true (.succeeded (some oid)) = (db, .ok) ∧
        processWebhook db true (.failed (some oid)) = (db, .ok) := by
  intro h
  have h2 := (h db0 7 (by intro o ho; exact absurd ho (List.not_mem_nil o))).1
  rw [show processWebhook db0 true (.succeeded (some 7)) = (db0, .orderNotFound)
      from rfl] at h2
  have h3 : WebhookResp.orderNotFound = WebhookResp.ok := congrArg Prod.snd h2
  exact absurd h3 (by simp)

/-- C3 (amended): when the correlated order id is absent or the order is no
longer pending, neither settlement branch changes any state — the event is an
idempotent no-op — but only the `payment_failed` branch acknowledges with
200; the `succeeded` branch surfaces a hard 404 "Order not found" to the
provider. -/
theorem C3_webhook_noop_amended (db : DB) (oid : ℕ)
    (h : ∀ o ∈ db.orders, ¬ (o.id = oid ∧ o.status = OrderStatus.pending)) :
    processWebhook db true (.succeeded (some oid)) = (db, .orderNotFound) ∧
    processWebhook db true (.failed (some oid)) = (db, .ok) := by
  have hfind : findPendingOrder db oid = none := by
    apply List.find?_eq_none.mpr
    intro o ho
    have := h o ho
    simp only [Bool.not_eq_true, Bool.and_eq_true, decide_eq_true_eq] at *
    tauto
  constructor
  · show processSucceeded db (some oid) = _
    simp [processSucceeded, hfind]
  · have hmap : db.orders.map
        (fun o => if o.id = oid && o.status = OrderStatus.pending
                  then { o with status := OrderStatus.failed } else o) = db.orders := by
      rw [List.map_congr_left ?_]
      · exact List.map_id' _
      · intro o ho
        have := h o ho
        rw [if_neg ?_]
        simp only [Bool.and_eq_true, decide_eq_true_eq]
        tauto
    have hred : processFailed db (some oid)
        = ({ db with orders := db.orders.map (fun o => if o.id = oid && o.status = OrderStatus.pending then { o with status := OrderStatus.failed } else o) }, WebhookResp.ok) := rfl
    show processFailed db (some oid) = _
    rw [hred, hmap]

/-- C3 witness: the amended statement at the concrete store db0 (no orders)
and order id 7. -/
theorem C3_webhook_noop_amended_witness :
    processWebhook db0 true (.succeeded (some 7)) = (db0, .orderNotFound) ∧
    processWebhook db0 true (.failed (some 7)) = (db0, .ok) :=
  C3_webhook_noop_amended db0 7 (by intro o ho; exact absurd ho (List.not_mem_nil o))

/-! ### C4: slot uniqueness -/

/-- The no-double-booking invariant backed by
`Appointment.Meta.unique_together = (category, date, time)`: no two
appointment rows share that triple. -/
def UniqueSlots (db : DB) : Prop :=
  db.appointments.Pairwise
    (fun a b => ¬ (a.categoryId = b.categoryId ∧ a.date = b.date ∧ a.time = b.time))

lemma validate_ok_iff (db : DB) (today cid date time dur : ℕ) :
    validateCreateAppointment db today cid date time dur = .ok () ↔
    (db.categories.any (fun c => c.id = cid) = true ∧ ¬ date < today
      ∧ workStart ≤ time ∧ time < workEnd ∧ dur ∈ validDurations
      ∧ hasSlot db cid date time = false ∧ ¬ endTimeMinutes time dur > workEnd) := by
  unfold validateCreateAppointment
  split_ifs <;> simp_all

lemma validate_slotConflict (db : DB) (today cid date time dur : ℕ)
    (hslot : hasSlot db cid date time = true)
    (hcat : db.categories.any (fun c => c.id = cid) = true)
    (hdate : ¬ date < today) (ht1 : workStart ≤ time) (ht2 : time < workEnd)
    (hdur : dur ∈ validDurations) :
    validateCreateAppointment db today cid date time dur = .error .slotConflict := by
  unfold validateCreateAppointment
  split_ifs <;> simp_all

lemma book_ok_inv (db : DB) (today uid cid date time dur : ℕ) (db' : DB) (i : ℕ)
    (h : book db today uid cid date time dur = .ok (db', i)) :
    validateCreateAppointment db today cid date time dur = .ok () ∧
    db' = { db with appointments := db.appointments ++ [{ id := db.nextId, userId := uid, categoryId := cid, date := date, time := time, duration := dur, totalPrice := compute_price (catPriceCents db cid) dur, isPaid := false }], nextId := db.nextId + 1 } := by
  unfold book at h
  cases hval : validateCreateAppointment db today cid date time dur with
  | error e => rw [hval] at h; simp at h
  | ok u =>
      cases u
      rw [hval] at h
      simp only [Except.ok.injEq, Prod.mk.injEq] at h
      exact ⟨rfl, h.1.symm⟩

/-- C4: (i) a successful `book` preserves the at-most-one-appointment-per-
(category, date, time) invariant; (ii) while an appointment on a triple
stands, a second otherwise well-formed `book` on the identical triple fails
with the slot conflict error, regardless of the requesting user and of the
(valid) duration; (iii) booking a different category at the same (date, time)
succeeds whenever the input is otherwise valid, yielding the new appointment
row. -/
theorem C4_slot_uniqueness :
    (∀ (db : DB) (today uid cid date time dur : ℕ) (db' : DB) (i : ℕ),
       UniqueSlots db →
       book db today uid cid date time dur = .ok (db', i) →
       UniqueSlots db') ∧
    (∀ (db : DB) (today uid cid date time dur : ℕ),
       hasSlot db cid date time = true →
       db.categories.any (fun c => c.id = cid) = true →
       ¬ date < today → workStart ≤ time → time < workEnd →
       dur ∈ validDurations →
       book db today uid cid date time dur = .error .slotConflict) ∧
    (∀ (db : DB) (today uid cid date time dur : ℕ),
       (∀ a ∈ db.appointments, a.categoryId ≠ cid) →
       db.categories.any (fun c => c.id = cid) = true →
       ¬ date < today → workStart ≤ time → time < workEnd →
       dur ∈ validDurations → ¬ endTimeMinutes time dur > workEnd →
       book db today uid cid date time dur = .ok ({ db with appointments := db.appointments ++ [{ id := db.nextId, userId := uid, categoryId := cid, date := date, time := time, duration := dur, totalPrice := compute_price (catPriceCents db cid) dur, isPaid := false }], nextId := db.nextId + 1 }, db.nextId)) := by
  refine ⟨?_, ?_, ?_⟩
  · intro db today uid cid date time dur db' i huniq hbk
    obtain ⟨hval, hdb⟩ := book_ok_inv db today uid cid date time dur db' i hbk
    have hslot : hasSlot db cid date time = false :=
      ((validate_ok_iff db today cid date time dur).mp hval).2.2.2.2.2.1
    have hfree : ∀ a ∈ db.appointments,
        ¬ (a.categoryId = cid ∧ a.date = date ∧ a.time = time) := by
      intro a ha
      have := List.any_eq_false.mp hslot a ha
      simpa using this
    subst hdb
    unfold UniqueSlots at *
    rw [List.pairwise_append]
    refine ⟨huniq, List.pairwise_singleton _ _, ?_⟩
    intro a ha b hb
    rw [List.mem_singleton] at hb
    subst hb
    exact hfree a ha
  · intro db today uid cid date time dur hslot hcat hdate ht1 ht2 hdur
    unfold book
    rw [validate_slotConflict db today cid date time dur hslot hcat hdate ht1 ht2 hdur]
  · intro db today uid cid date time dur hfree hcat hdate ht1 ht2 hdur hend
    have hslot : hasSlot db cid date time = false := by
      rw [hasSlot, List.any_eq_false]
      intro a ha
      simp only [Bool.and_eq_true, decide_eq_true_eq]
      intro hc
      exact hfree a ha hc.1.1
    have hval : validateCreateAppointment db today cid date time dur = .ok () :=
      (validate_ok_iff db today cid date time dur).mpr
        ⟨hcat, hdate, ht1, ht2, hdur, hslot, hend⟩
    unfold book
    rw [hval]

/-- The store after booking category 1 on day 5 at 10:00 (600 min) for 60
minutes in `db0` (appointment id 3, unpaid). -/
def db0booked : DB :=
  { db0 with appointments := [{ id := 3, userId := 1, categoryId := 1, date := 5, time := 600, duration := 60, totalPrice := compute_price 4500 60, isPaid := false }], nextId := 4 }

/-- C4 witness: in the singleton-booking store, the invariant holds, a second
book on the identical triple by another user with another valid duration
fails with the slot conflict, and booking category 2 at the same (date, time)
succeeds. -/
theorem C4_slot_uniqueness_witness :
    UniqueSlots db0booked ∧
    book db0booked 0 2 1 5 600 120 = .error .slotConflict ∧
    book db0booked 0 1 2 5 600 60 = .ok ({ db0booked with appointments := db0booked.appointments ++ [{ id := 4, userId := 1, categoryId := 2, date := 5, time := 600, duration := 60, totalPrice := compute_price (catPriceCents db0booked 2) 60, isPaid := false }], nextId := 5 }, 4) := by
  refine ⟨?_, ?_, ?_⟩
  · exact C4_slot_uniqueness.1 db0 0 1 1 5 600 60 db0booked 3 List.Pairwise.nil rfl
  · exact C4_slot_uniqueness.2.1 db0booked 0 2 1 5 600 120 (by decide) (by decide)
      (by decide) (by decide) (by decide) (by decide)
  · exact C4_slot_uniqueness.2.2 db0booked 0 1 2 5 600 60 (by decide) (by decide)
      (by decide) (by decide) (by decide) (by decide) (by decide)

/-! ### C5: settlement idempotency -/

/-- Number of appointment rows occupying a (category, date, time) slot. -/
def countSlot (db : DB) (c d t : ℕ) : ℕ :=
  (db.appointments.filter (fun a => a.categoryId = c && a.date = d && a.time = t)).length

lemma settleItem_orders (db : DB) (u : ℕ) (oi : OrderItem) :
    (settleItem db u oi).orders = db.orders := by
  unfold settleItem
  split_ifs <;> rfl

lemma settleItem_cartItems (db : DB) (u : ℕ) (oi : OrderItem) :
    (settleItem db u oi).cartItems = db.cartItems := by
  unfold settleItem
  split_ifs <;> rfl

lemma settleItem_hasSlot_self (db : DB) (u : ℕ) (oi : OrderItem) :
    hasSlot (settleItem db u oi) oi.categoryId oi.date oi.time = true := by
  unfold settleItem
  split_ifs with h
  · exact h
  · simp [hasSlot, List.any_append]

lemma settleItem_hasSlot_mono (db : DB) (u : ℕ) (oi : OrderItem) (c d t : ℕ)
    (h : hasSlot db c d t = true) : hasSlot (settleItem db u oi) c d t = true := by
  unfold settleItem
  split_ifs with hs
  · exact h
  · unfold hasSlot at h ⊢
    simp only [List.any_append, h, Bool.true_or]

lemma settleItem_unique (db : DB) (u : ℕ) (oi : OrderItem) (h : UniqueSlots db) :
    UniqueSlots (settleItem db u oi) := by
  unfold settleItem
  split_ifs with hs
  · exact h
  · have hs2 : hasSlot db oi.categoryId oi.date oi.time = false := by
      simpa using hs
    unfold UniqueSlots at *
    rw [show ({ db with appointments := db.appointments ++ [{ id := db.nextId, userId := u, categoryId := oi.categoryId, date := oi.date, time := oi.time, duration := oi.duration, totalPrice := compute_price (catPriceCents db oi.categoryId) oi.duration, isPaid := true }], orderItems := db.orderItems.map (fun x => if x.id = oi.id then { x with appointmentId := some db.nextId } else x), nextId := db.nextId + 1 } : DB).appointments = db.appointments ++ [{ id := db.nextId, userId := u, categoryId := oi.categoryId, date := oi.date, time := oi.time, duration := oi.duration, totalPrice := compute_price (catPriceCents db oi.categoryId) oi.duration, isPaid := true }] from rfl]
    rw [List.pairwise_append]
    refine ⟨h, List.pairwise_singleton _ _, ?_⟩
    intro a ha b hb
    rw [List.mem_singleton] at hb
    subst hb
    intro hcontr
    have hfree := List.any_eq_false.mp hs2 a ha
    simp only [Bool.and_eq_true, decide_eq_true_eq] at hfree
    exact hfree ⟨⟨hcontr.1, hcontr.2.1⟩, hcontr.2.2⟩

lemma settleFold_orders (l : List OrderItem) (db : DB) (u : ℕ) :
    (l.foldl (fun d oi => settleItem d u oi) db).orders = db.orders := by
  induction l generalizing db with
  | nil => rfl
  | cons oi rest ih => rw [List.foldl_cons, ih, settleItem_orders]

lemma settleFold_hasSlot_mono (l : List OrderItem) (db : DB) (u c d t : ℕ)
    (h : hasSlot db c d t = true) :
    hasSlot (l.foldl (fun d2 x => settleItem d2 u x) db) c d t = true := by
  induction l generalizing db with
  | nil => exact h
  | cons x rest ih =>
      rw [List.foldl_cons]
      exact ih _ (settleItem_hasSlot_mono _ _ _ _ _ _ h)

lemma settleFold_unique (l : List OrderItem) (db : DB) (u : ℕ) (h : UniqueSlots db) :
    UniqueSlots (l.foldl (fun d oi => settleItem d u oi) db) := by
  induction l generalizing db with
  | nil => exact h
  | cons oi rest ih =>
      rw [List.foldl_cons]
      exact ih _ (settleItem_unique _ _ _ h)

lemma settleFold_hasSlot (l : List OrderItem) (db : DB) (u : ℕ) (oi : OrderItem)
    (hmem : oi ∈ l) :
    hasSlot (l.foldl (fun d x => settleItem d u x) db) oi.categoryId oi.date oi.time
      = true := by
  induction l generalizing db with
  | nil => cases hmem
  | cons x rest ih =>
      rw [List.foldl_cons]
      rcases List.mem_cons.mp hmem with rfl | hmem2
      · exact settleFold_hasSlot_mono rest _ u _ _ _ (settleItem_hasSlot_self db u oi)
      · exact ih _ hmem2

lemma filter_slot_length_one (l : List Appointment) (c d t : ℕ)
    (hu : l.Pairwise
      (fun a b => ¬ (a.categoryId = b.categoryId ∧ a.date = b.date ∧ a.time = b.time)))
    (hs : l.any (fun a => a.categoryId = c && a.date = d && a.time = t) = true) :
    (l.filter (fun a => a.categoryId = c && a.date = d && a.time = t)).length = 1 := by
  induction l with
  | nil => simp at hs
  | cons a rest ih =>
      rw [List.pairwise_cons] at hu
      rw [List.filter_cons]
      by_cases hpa : (a.categoryId = c && a.date = d && a.time = t) = true
      · rw [if_pos hpa]
        have hrest : rest.filter
            (fun x => x.categoryId = c && x.date = d && x.time = t) = [] := by
          rw [List.filter_eq_nil_iff]
          intro b hb hpb
          simp only [Bool.and_eq_true, decide_eq_true_eq] at hpa hpb
          exact hu.1 b hb
            ⟨hpa.1.1.trans hpb.1.1.symm, hpa.1.2.trans hpb.1.2.symm,
             hpa.2.trans hpb.2.symm⟩
        rw [hrest]
        rfl
      · rw [if_neg hpa]
        rw [List.any_cons] at hs
        have hs2 : rest.any
            (fun x => x.categoryId = c && x.date = d && x.time = t) = true := by
          rcases Bool.or_eq_true_iff.mp hs with h1 | h1
          · exact absurd h1 hpa
          · exact h1
        exact ih hu.2 hs2

lemma countSlot_eq_one (db : DB) (c d t : ℕ) (hu : UniqueSlots db)
    (hs : hasSlot db c d t = true) : countSlot db c d t = 1 :=
  filter_slot_length_one db.appointments c d t hu hs

/-- C5: delivering the same payment_intent.succeeded event twice for one
pending order is idempotent for appointments: the second delivery finds the
order already paid, changes nothing (the returned state is exactly the state
after the first delivery, with a 404), and after the first delivery each
OrderItem of the order has exactly one appointment row on its
(category, date, time) slot — never two — because per-item creation is the
atomic create-if-absent `get_or_create`. -/
theorem C5_settlement_idempotent (db : DB) (oid : ℕ) (o : Order)
    (hu : UniqueSlots db) (hfind : findPendingOrder db oid = some o) :
    processSucceeded ((processSucceeded db (some oid)).1) (some oid)
      = ((processSucceeded db (some oid)).1, .orderNotFound) ∧
    (∀ oi ∈ db.orderItems.filter (fun x => x.orderId = oid),
       countSlot (processSucceeded db (some oid)).1 oi.categoryId oi.date oi.time
         = 1) := by
  have hP : processSucceeded db (some oid)
      = ({ (({ db with orders := db.orders.map (fun x => if x.id = oid then { x with status := OrderStatus.paid } else x) } : DB).orderItems.filter (fun x => x.orderId = oid)).foldl (fun d oi => settleItem d o.userId oi) ({ db with orders := db.orders.map (fun x => if x.id = oid then { x with status := OrderStatus.paid } else x) } : DB) with cartItems := ((({ db with orders := db.orders.map (fun x => if x.id = oid then { x with status := OrderStatus.paid } else x) } : DB).orderItems.filter (fun x => x.orderId = oid)).foldl (fun d oi => settleItem d o.userId oi) ({ db with orders := db.orders.map (fun x => if x.id = oid then { x with status := OrderStatus.paid } else x) } : DB)).cartItems.filter (fun it => it.userId ≠ o.userId) }, WebhookResp.ok) := by
    simp only [processSucceeded, hfind]
  set db1 : DB := { db with orders := db.orders.map (fun x => if x.id = oid then { x with status := OrderStatus.paid } else x) } with hdb1
  set db2 := (db1.orderItems.filter (fun x => x.orderId = oid)).foldl
    (fun d oi => settleItem d o.userId oi) db1 with hdb2
  set db3 : DB := { db2 with cartItems := db2.cartItems.filter (fun it => it.userId ≠ o.userId) } with hdb3
  rw [hP]
  have hord3 : db3.orders
      = db.orders.map (fun x => if x.id = oid then { x with status := OrderStatus.paid } else x) := by
    show db2.orders = _
    rw [hdb2, settleFold_orders]
  have hfind3 : findPendingOrder db3 oid = none := by
    unfold findPendingOrder
    rw [hord3]
    apply List.find?_eq_none.mpr
    intro y hy
    obtain ⟨x, hx, rfl⟩ := List.mem_map.mp hy
    by_cases hid : x.id = oid <;> simp [hid]
  constructor
  · show processSucceeded db3 (some oid) = (db3, WebhookResp.orderNotFound)
    simp only [processSucceeded, hfind3]
  · intro oi hmem
    show countSlot db3 oi.categoryId oi.date oi.time = 1
    have happt : db3.appointments = db2.appointments := rfl
    have hu2 : UniqueSlots db2 := by
      rw [hdb2]
      exact settleFold_unique _ _ _ hu
    have hmem2 : oi ∈ db1.orderItems.filter (fun x => x.orderId = oid) := hmem
    have hs2 : hasSlot db2 oi.categoryId oi.date oi.time = true := by
      rw [hdb2]
      exact settleFold_hasSlot _ _ _ _ hmem2
    have hu3 : UniqueSlots db3 := hu2
    have hs3 : hasSlot db3 oi.categoryId oi.date oi.time = true := hs2
    exact countSlot_eq_one db3 oi.categoryId oi.date oi.time hu3 hs3

/-- One pending order (id 9) for user 1 with a single item on the Immigration
slot (day 5, 10:00, 60 min, frozen prices 45.00 / 180.00). -/
def oi5 : OrderItem :=
  { id := 10, orderId := 9, categoryId := 1, categoryName := "Immigration",
    date := 5, time := 600, duration := 60, unitPrice := 45, totalPrice := 180,
    appointmentId := none }

/-- Store with the pending order 9 and its single item `oi5`. -/
def db5 : DB :=
  { db0 with
    orders := [{ id := 9, userId := 1, totalAmount := 180,
                 status := .pending, stripePI := some 77 }],
    orderItems := [oi5], nextId := 11 }

/-- C5 witness: the idempotency statement at the concrete store db5. -/
theorem C5_settlement_idempotent_witness :
    processSucceeded ((processSucceeded db5 (some 9)).1) (some 9)
      = ((processSucceeded db5 (some 9)).1, .orderNotFound) ∧
    countSlot (processSucceeded db5 (some 9)).1 1 5 600 = 1 := by
  have h := C5_settlement_idempotent db5 9
    { id := 9, userId := 1, totalAmount := 180, status := .pending, stripePI := some 77 }
    List.Pairwise.nil rfl
  exact ⟨h.1, h.2 oi5 (by decide)⟩

/-! ### C6: provider failure rolls the order back -/

/-- C6: when the payment provider fails during checkout (after the cart was
validated non-empty with positive total), the order and its items created
earlier in the same request are deleted again: the resulting store is the
original one — same orders, order items, cart and appointments — except for
the consumed primary keys, and the 502 upstream error is surfaced.  The
freshness hypotheses say existing rows do not already use the order id about
to be allocated. -/
theorem C6_checkout_rollback (db : DB) (uid intentId : ℕ)
    (hfresh1 : ∀ o ∈ db.orders, o.id ≠ db.nextId)
    (hfresh2 : ∀ oi ∈ db.orderItems, oi.orderId ≠ db.nextId)
    (hne : userCart db uid ≠ [])
    (hpos : 0 < cartTotal db uid) :
    checkout db uid false intentId
      = ({ db with nextId := db.nextId + 1 + (userCart db uid).length },
         .error .upstreamPaymentError) := by
  have hfilter1 : (db.orders ++ [({ id := db.nextId, userId := uid, totalAmount := cartTotal db uid, status := OrderStatus.pending, stripePI := none } : Order)]).filter (fun o => o.id ≠ db.nextId) = db.orders := by
    rw [List.filter_append]
    have h1 : db.orders.filter (fun o => o.id ≠ db.nextId) = db.orders :=
      List.filter_eq_self.mpr (fun o ho => by simpa using hfresh1 o ho)
    rw [h1]
    simp
  have hfilter2 : (db.orderItems ++ (userCart db uid).enum.map (snapshotItem db db.nextId)).filter (fun oi => oi.orderId ≠ db.nextId) = db.orderItems := by
    rw [List.filter_append]
    have h1 : db.orderItems.filter (fun oi => oi.orderId ≠ db.nextId) = db.orderItems :=
      List.filter_eq_self.mpr (fun oi ho => by simpa using hfresh2 oi ho)
    have h2 : ((userCart db uid).enum.map (snapshotItem db db.nextId)).filter (fun oi => oi.orderId ≠ db.nextId) = [] := by
      rw [List.filter_eq_nil_iff]
      intro oi hoi
      obtain ⟨p, hp, rfl⟩ := List.mem_map.mp hoi
      simp [snapshotItem]
    rw [h1, h2, List.append_nil]
  have hemp : ¬ (userCart db uid).isEmpty = true := by
    simpa [List.isEmpty_iff] using hne
  simp only [checkout]
  rw [if_neg hemp, if_neg (not_le.mpr hpos), if_neg (by simp : ¬ false = true)]
  rw [hfilter1, hfilter2]

/-- A store whose user 1 holds one cart item (category 1, day 5, 10:00,
60 minutes). -/
def db6 : DB :=
  { db0 with cartItems :=
      [{ id := 1, userId := 1, categoryId := 1, date := 5, time := 600, duration := 60 }] }

lemma cartTotal_db6 : cartTotal db6 1 = 180 := by
  have h1 : cartTotal db6 1 = decAdd 0 (compute_price 4500 60) := rfl
  rw [h1, compute_price_4500_60, decAdd]
  rw [show (0:ℚ) + 180 = 180 by norm_num]
  exact round28_eq_self 180 (by norm_num) (by norm_num) 180000 (by norm_num)

/-- C6 witness: the rollback statement at the concrete store db6. -/
theorem C6_checkout_rollback_witness :
    checkout db6 1 false 77
      = ({ db6 with nextId := db6.nextId + 1 + (userCart db6 1).length },
         .error .upstreamPaymentError) :=
  C6_checkout_rollback db6 1 77
    (fun o ho => absurd ho (List.not_mem_nil o))
    (fun oi hoi => absurd hoi (List.not_mem_nil oi))
    (by decide)
    (by rw [cartTotal_db6] ; norm_num)

/-! ### C7: pricing-engine exactness -/

/-- C7 (counterexample): the claim that for EVERY stored unit price and every
whitelisted duration the computed price equals `unit / 15 * duration` in
exact arithmetic is false: at unit price 0.31 (31 cents) and duration 30 the
28-significant-digit context rounds the quotient, leaving a one-ulp drift
(0.6200000000000000000000000001 instead of 0.62). -/
theorem C7_price_exactness_counterexample :
    ¬ ∀ (cents D : ℕ), D ∈ validDurations →
        compute_price cents D = (cents : ℚ) / 100 / 15 * D := by
  intro h
  have h2 := h 31 30 (by decide)
  rw [compute_price_31_30] at h2
  push_cast at h2
  norm_num at h2

/-- C7 (amended): whenever the stored unit price in cents is divisible by 3
(so that the division by 15 is a finite decimal — in particular for every
whole-dollar price such as 45.00 or 75.00) and fits the 10-digit column, the
price computed at every persistence point equals
`unit_price / 15 * duration` exactly, for every whitelisted duration;
the computation is a pure function, hence deterministic and idempotent. -/
theorem C7_price_exact_when_divisible (cents D : ℕ) (h3 : 3 ∣ cents)
    (hcap : cents < 10 ^ 10) (hD : D ∈ validDurations) :
    compute_price cents D = (cents : ℚ) / 100 / 15 * D := by
  have hD2 : 0 < D ∧ D ≤ 120 := by
    simp [validDurations] at hD
    rcases hD with rfl | rfl | rfl | rfl <;> exact ⟨by norm_num, by norm_num⟩
  exact compute_price_eq_exact cents D h3 hcap hD2.1 hD2.2

/-- C7 witness: unit price 45.00 with duration 60 gives exactly 180.00. -/
theorem C7_price_exact_witness :
    compute_price 4500 60 = ((4500:ℕ) : ℚ) / 100 / 15 * ((60:ℕ) : ℚ) ∧
    compute_price 4500 60 = 180 := by
  constructor
  · exact C7_price_exact_when_divisible 4500 60 (by norm_num) (by norm_num) (by decide)
  · rw [C7_price_exact_when_divisible 4500 60 (by norm_num) (by norm_num) (by decide)]
    norm_num

/-! ### C8: order snapshots are immune to catalog and cart changes -/

/-- C8: after checkout has persisted an Order (frozen `total_amount`) and its
OrderItems (frozen `unit_price`, `total_price`), neither an admin update of
the category's `price_per_15min` nor any cart mutation (item removal, cart
clearing, item adding) touches the stored order rows: the `orders` and
`orderItems` tables are left exactly as they were — stored snapshot amounts
are never recomputed from the catalog. -/
theorem C8_snapshot_immutable (db : DB) (cid newCents uid itemId today date time dur : ℕ) :
    ((updateCategoryPrice db cid newCents).orders = db.orders ∧
     (updateCategoryPrice db cid newCents).orderItems = db.orderItems) ∧
    ((deleteCartItem db uid itemId).orders = db.orders ∧
     (deleteCartItem db uid itemId).orderItems = db.orderItems) ∧
    ((clearCart db uid).orders = db.orders ∧
     (clearCart db uid).orderItems = db.orderItems) ∧
    (∀ db2 i, addToCart db today uid cid date time dur = .ok (db2, i) →
       db2.orders = db.orders ∧ db2.orderItems = db.orderItems) := by
  refine ⟨⟨rfl, rfl⟩, ⟨rfl, rfl⟩, ⟨rfl, rfl⟩, ?_⟩
  intro db2 i h
  unfold addToCart at h
  cases hval : validateAddToCart db today cid date time dur with
  | error e => rw [hval] at h; simp at h
  | ok u =>
      cases u
      rw [hval] at h
      simp only [Except.ok.injEq, Prod.mk.injEq] at h
      rw [← h.1]
      exact ⟨rfl, rfl⟩

/-! ### C9: settlement recomputes the appointment price from the current catalog -/

/-- C9: the appointment materialized at settlement for a free slot gets its
`total_price` recomputed (via the `save()` hook) from the category's price
current AT SETTLEMENT, not copied from the OrderItem's frozen `total_price`;
consequently, when the catalog price changed between checkout (where the item
froze `compute_price kold duration`) and settlement, the stored appointment
price differs from the amount actually paid for that item. -/
theorem C9_settlement_price_recomputed (db : DB) (u kold : ℕ) (oi : OrderItem)
    (hfree : hasSlot db oi.categoryId oi.date oi.time = false)
    (hfrozen : oi.totalPrice = compute_price kold oi.duration)
    (hk1 : kold < 10 ^ 10)
    (hk2 : catPriceCents db oi.categoryId < 10 ^ 10)
    (hne : kold ≠ catPriceCents db oi.categoryId)
    (hD : oi.duration ∈ validDurations) :
    (settleItem db u oi).appointments
      = db.appointments ++ [{ id := db.nextId, userId := u, categoryId := oi.categoryId, date := oi.date, time := oi.time, duration := oi.duration, totalPrice := compute_price (catPriceCents db oi.categoryId) oi.duration, isPaid := true }] ∧
    compute_price (catPriceCents db oi.categoryId) oi.duration ≠ oi.totalPrice := by
  constructor
  · unfold settleItem
    rw [if_neg (by simp [hfree])]
  · rw [hfrozen]
    have hD2 : 0 < oi.duration ∧ oi.duration ≤ 120 := by
      simp [validDurations] at hD
      rcases hD with h | h | h | h <;> rw [h] <;> exact ⟨by norm_num, by norm_num⟩
    exact compute_price_ne_of_ne _ _ _ (Ne.symm hne) hk2 hk1 hD2.1 hD2.2

/-- An order item frozen at checkout when category 2 cost 45.00
(total 180.00); in db0 the category's current price is 60.00. -/
def oi9 : OrderItem :=
  { id := 10, orderId := 9, categoryId := 2, categoryName := "Family Law",
    date := 6, time := 660, duration := 60, unitPrice := 45, totalPrice := 180,
    appointmentId := none }

/-- C9 witness: settling `oi9` against db0 materializes an appointment priced
from the current 60.00 (240.00), which differs from the 180.00 actually
paid. -/
theorem C9_settlement_price_recomputed_witness :
    (settleItem db0 1 oi9).appointments
      = db0.appointments ++ [{ id := 3, userId := 1, categoryId := 2, date := 6, time := 660, duration := 60, totalPrice := compute_price (catPriceCents db0 2) 60, isPaid := true }] ∧
    compute_price (catPriceCents db0 2) 60 ≠ oi9.totalPrice :=
  C9_settlement_price_recomputed db0 1 4500 oi9 (by decide)
    (compute_price_4500_60.symm) (by norm_num) (by decide) (by decide) (by decide)

lemma processSucceeded_split (db : DB) (oid : ℕ) (o : Order)
    (hfind : findPendingOrder db oid = some o) :
    ∃ db2 : DB,
      processSucceeded db (some oid)
        = ({ db2 with cartItems := db2.cartItems.filter (fun it => it.userId ≠ o.userId) },
           WebhookResp.ok) ∧
      db2.orders = db.orders.map
        (fun x => if x.id = oid then { x with status := OrderStatus.paid } else x) := by
  refine ⟨(db.orderItems.filter (fun x => x.orderId = oid)).foldl (fun d oi => settleItem d o.userId oi) { db with orders := db.orders.map (fun x => if x.id = oid then { x with status := OrderStatus.paid } else x) }, ?_, ?_⟩
  · simp only [processSucceeded, hfind]
  · exact settleFold_orders _ _ _

/-! ### C10: an unpaid appointment on the slot — paid order, no appointment -/

/-- C10: an existing UNPAID appointment occupying (category, date, time) does
not block adding that slot to a cart (the guard filters on is_paid=True
only); at settlement the create-if-absent lookup matches the unpaid
appointment, so the store is left completely unchanged by that item — no new
appointment, the OrderItem's appointment link stays null — while the webhook
still marks the order paid, acknowledges success, and afterwards no pending
order remains: payment is captured with no appointment materialized. -/
theorem C10_unpaid_slot_payment_without_appointment :
    (∀ (db : DB) (today cid date time dur : ℕ),
       (∀ a ∈ db.appointments,
         a.categoryId = cid ∧ a.date = date ∧ a.time = time → a.isPaid = false) →
       db.categories.any (fun c => c.id = cid) = true → ¬ date < today →
       dur ∈ validDurations →
       validateAddToCart db today cid date time dur = .ok ()) ∧
    (∀ (db : DB) (u : ℕ) (oi : OrderItem),
       hasSlot db oi.categoryId oi.date oi.time = true →
       settleItem db u oi = db) ∧
    (∀ (db : DB) (oid : ℕ) (o : Order),
       findPendingOrder db oid = some o →
       (processSucceeded db (some oid)).2 = .ok ∧
       findPendingOrder (processSucceeded db (some oid)).1 oid = none) := by
  refine ⟨?_, ?_, ?_⟩
  · intro db today cid date time dur hunpaid hcat hdate hdur
    have hguard : hasPaidSlot db cid date time = false := by
      rw [hasPaidSlot, List.any_eq_false]
      intro a ha
      simp only [Bool.and_eq_true, decide_eq_true_eq]
      intro hcontr
      have := hunpaid a ha ⟨hcontr.1.1.1, hcontr.1.1.2, hcontr.1.2⟩
      rw [this] at hcontr
      exact absurd hcontr.2 (by simp)
    unfold validateAddToCart
    split_ifs <;> simp_all
  · intro db u oi h
    unfold settleItem
    rw [if_pos h]
  · intro db oid o hfind
    obtain ⟨db2, hPeq, hord⟩ := processSucceeded_split db oid o hfind
    constructor
    · rw [hPeq]
    · rw [hPeq]
      unfold findPendingOrder
      rw [show ({ db2 with cartItems := db2.cartItems.filter (fun it => it.userId ≠ o.userId) } : DB).orders = db2.orders from rfl]
      rw [hord]
      apply List.find?_eq_none.mpr
      intro y hy
      obtain ⟨x, hx, rfl⟩ := List.mem_map.mp hy
      by_cases hid : x.id = oid <;> simp [hid]

/-- C2 witness: the amended characterization applied at a concrete store:
an 08:00 item (outside working hours) with valid date/duration and no paid
appointment is accepted into the cart. -/
theorem C2_cart_validator_characterization_witness :
    validateAddToCart db0 0 1 5 480 60 = .ok () :=
  (C2_cart_validator_characterization db0 0 1 5 480 60).mpr
    ⟨by decide, by decide, by decide, by decide⟩

/-- The store db5 after adding one more cart item for user 1. -/
def db5cart : DB :=
  { db5 with cartItems := db5.cartItems ++ [{ id := 11, userId := 1, categoryId := 1, date := 5, time := 600, duration := 60 }], nextId := 12 }

/-- C8 witness: the frame statement applied at the concrete store db5 (one
order with one item): a price update to 99.00 and cart mutations leave the
order tables untouched. -/
theorem C8_snapshot_immutable_witness :
    (updateCategoryPrice db5 1 9900).orders = db5.orders ∧
    (updateCategoryPrice db5 1 9900).orderItems = db5.orderItems ∧
    db5cart.orders = db5.orders ∧ db5cart.orderItems = db5.orderItems := by
  have h := C8_snapshot_immutable db5 1 9900 1 10 0 5 600 60
  exact ⟨h.1.1, h.1.2, (h.2.2.2 db5cart 11 rfl).1, (h.2.2.2 db5cart 11 rfl).2⟩

/-- C10 witness: with the unpaid appointment of db0booked occupying the
slot, cart-add accepts the same slot; settling an order item for that slot
leaves the store untouched; and for the pending order of db5 the webhook
acknowledges ok and leaves no pending order behind. -/
theorem C10_unpaid_slot_payment_without_appointment_witness :
    validateAddToCart db0booked 0 1 5 600 60 = .ok () ∧
    settleItem db0booked 1 oi5 = db0booked ∧
    (processSucceeded db5 (some 9)).2 = .ok ∧
    findPendingOrder (processSucceeded db5 (some 9)).1 9 = none := by
  have h := C10_unpaid_slot_payment_without_appointment
  have h3 := h.2.2 db5 9
    { id := 9, userId := 1, totalAmount := 180, status := .pending, stripePI := some 77 } rfl
  exact ⟨h.1 db0booked 0 1 5 600 60 (by decide) (by decide) (by decide) (by decide),
         h.2.1 db0booked 1 oi5 (by decide), h3.1, h3.2⟩

end Consult
